import Mathlib

/-!
A verification development for the read/write syscall tracer (`main.go`).

The Go program enumerates `/proc`, selects a target process and its direct
children, seizes every selected task with ptrace and then runs a wait/dispatch
loop that prints the buffers of `read` and `write` syscalls.

The embedding is shallow: every Go function (or inline block of `run`) becomes
a Lean function over explicit inputs.  Calls into the kernel and the file
system are answered by an explicit environment record, and every observable
action (kernel call or printed line) is recorded as an `Event`, in program
order.  Go `int`/`uint64` values are `Int`/`Nat`; a byte is a `Char`.
-/

namespace WriteSnoop

/-! ## Bytes and the two library functions used by the status-line parsing -/

/-- A Go byte slice or string: a byte is represented by the character with
the same code. -/
abbrev Bytes := List Char

/-- An error value, represented by its errno number. -/
abbrev Errno := Nat

/-- Decimal digit test used by `strconv.Atoi`. -/
def isDigit (c : Char) : Bool := decide (48 ≤ c.toNat ∧ c.toNat ≤ 57)

/-- Value of a run of decimal digits, most significant first. -/
def digitsValue (ds : Bytes) : Nat :=
  ds.foldl (fun acc c => acc * 10 + (c.toNat - 48)) 0

/-- The sign test of `strconv.Atoi`: `s[0] == '-'`. -/
def hasMinus (s : Bytes) : Bool := s.head? == some '-'

/-- The sign stripping of `strconv.Atoi`: drop a leading `-` or `+`. -/
def stripSign (s : Bytes) : Bytes :=
  if s.head? = some '-' ∨ s.head? = some '+' then s.tail else s

/-- Go `strconv.Atoi` on a 64-bit platform: an optional sign followed by one
or more decimal digits, whose value fits in `int`; `none` stands for a
returned error. -/
def Atoi (s : Bytes) : Option Int :=
  let ds := stripSign s
  if ds.isEmpty || !ds.all isDigit then none
  else
    let v : Int :=
      if hasMinus s then -((digitsValue ds : Nat) : Int) else ((digitsValue ds : Nat) : Int)
    if v < -(2 : Int) ^ 63 ∨ (2 : Int) ^ 63 - 1 < v then none else some v

/-- Go `bytes.SplitN(s, []byte{sep}, n)` for `n ≥ 0`: at most `n` pieces, cut
at the first `n - 1` separators, the last piece being the unsplit rest. -/
def SplitN (sep : Char) : Nat → Bytes → List Bytes
  | 0, _ => []
  | 1, s => [s]
  | n + 2, s =>
    match s.span (fun c => c != sep) with
    | (_, []) => [s]
    | (a, _ :: rest) => a :: SplitN sep (n + 1) rest

/-! ## Process records and the snapshot reader `loadProcs` -/

/-- Go `type Proc struct`. -/
structure Proc where
  Pid : Int
  Ppid : Int
  Command : Bytes
  State : Char
  ThreadPids : List Int
  deriving DecidableEq, Repr

/-- The zero value of `Proc` (`var proc Proc`). -/
def Proc.zero : Proc :=
  { Pid := 0, Ppid := 0, Command := [], State := Char.ofNat 0, ThreadPids := [] }

instance : Inhabited Proc := ⟨Proc.zero⟩

/-- Outcome of the status-line block of `loadProcs` (lines 126-138) for one
process: a record (threads not yet filled in), an omission (`continue`), or a
Go run-time error for an index out of range. -/
inductive StatResult where
  | record (p : Proc)
  | omitted
  | indexOutOfRange
  deriving DecidableEq, Repr

/-- Lines 126-138 of `loadProcs`: split the status file on the first four
spaces, parse `fields[3]` as the parent id, and build the record from
`fields[1]` and `fields[2][0]`.  `fields[3]` and `fields[2][0]` are Go index
expressions: out of range they abort the program. -/
def parseStat (pid : Int) (statFileBytes : Bytes) : StatResult :=
  let fields := SplitN ' ' 5 statFileBytes
  match fields.get? 3 with
  | none => .indexOutOfRange
  | some f3 =>
    match Atoi f3 with
    | none => .omitted
    | some ppid =>
      match fields.get? 1, fields.get? 2 with
      | some f1, some f2 =>
        match f2.get? 0 with
        | none => .indexOutOfRange
        | some st =>
          .record { Pid := pid, Ppid := ppid, Command := f1, State := st, ThreadPids := [] }
      | _, _ => .indexOutOfRange

/-- A directory entry as returned by `ioutil.ReadDir`. -/
structure DirEntry where
  Name : Bytes
  IsDir : Bool
  deriving DecidableEq, Repr

/-- The kernel process table as seen by `loadProcs`: the listing of `/proc`,
and for every entry name the content of `/proc/<name>/stat` and the listing of
`/proc/<name>/task`, each of which may fail with an error. -/
structure ProcFS where
  procDir : Except Errno (List DirEntry)
  statFile : Bytes → Except Errno Bytes
  taskDir : Bytes → Except Errno (List DirEntry)

/-- How `loadProcs` ends: it returns the snapshot, exits through `log.Fatal`,
or aborts on an index out of range. -/
inductive LoadResult where
  | procs (ps : List Proc)
  | fatal (err : Errno)
  | indexOutOfRange
  deriving DecidableEq, Repr

/-- The inner loop of `loadProcs` over the thread listing: names that are not
integers are skipped. -/
def threadPids (threads : List DirEntry) : List Int :=
  threads.filterMap (fun t => Atoi t.Name)

/-- The body of the `for _, f := range files` loop of `loadProcs`, with the
snapshot built so far as accumulator. -/
def loadProcsLoop (fs : ProcFS) : List DirEntry → List Proc → LoadResult
  | [], procs => .procs procs
  | f :: rest, procs =>
    if !f.IsDir then loadProcsLoop fs rest procs
    else
      match Atoi f.Name with
      | none => loadProcsLoop fs rest procs
      | some pid =>
        match fs.statFile f.Name with
        | .error _ => loadProcsLoop fs rest procs
        | .ok statFileBytes =>
          match parseStat pid statFileBytes with
          | .indexOutOfRange => .indexOutOfRange
          | .omitted => loadProcsLoop fs rest procs
          | .record p =>
            match fs.taskDir f.Name with
            | .error e => .fatal e
            | .ok threads =>
              loadProcsLoop fs rest (procs ++ [{ p with ThreadPids := threadPids threads }])

/-- Go `func loadProcs() []Proc`. -/
def loadProcs (fs : ProcFS) : LoadResult :=
  match fs.procDir with
  | .error e => .fatal e
  | .ok files => loadProcsLoop fs files []

/-! ## Tree selection and trace-target construction (first half of `run`) -/

/-- One pass of the selection loop of `run` (lines 171-177) over a record:
`proc` is overwritten when the pid matches, otherwise the record is appended to
`children` when its parent id matches. -/
def selectStep (pid : Int) (st : Proc × List Proc) (p : Proc) : Proc × List Proc :=
  if p.Pid = pid then (p, st.2)
  else if p.Ppid = pid then (st.1, st.2 ++ [p])
  else st

/-- The selection loop of `run` (lines 169-177), starting from the zero record
and no children. -/
def selectTree (procs : List Proc) (pid : Int) : Proc × List Proc :=
  procs.foldl (selectStep pid) (Proc.zero, [])

/-- Go `type TraceProc struct`. -/
structure TraceProc where
  Pid : Int
  deriving DecidableEq, Repr

/-- Go `func NewTraceProc(pid int) TraceProc`. -/
def NewTraceProc (pid : Int) : TraceProc := { Pid := pid }

/-- The thread loops of `run` (lines 186-191 and 197-202): append a trace
target for every thread id different from the owning pid. -/
def watchThreads (owner : Int) (threads : List Int) (pidsToWatch : List TraceProc) :
    List TraceProc :=
  threads.foldl (fun acc t => if t = owner then acc else acc ++ [NewTraceProc t]) pidsToWatch

/-- Lines 182-203 of `run`: the trace targets for the selected record and its
children, appended in program order. -/
def buildPidsToWatch (proc : Proc) (children : List Proc) : List TraceProc :=
  let pidsToWatch := [NewTraceProc proc.Pid]
  let pidsToWatch := watchThreads proc.Pid proc.ThreadPids pidsToWatch
  children.foldl
    (fun acc c => watchThreads c.Pid c.ThreadPids (acc ++ [NewTraceProc c.Pid]))
    pidsToWatch

/-! ## Observable actions -/

/-- A line written to standard output, one constructor per print statement of
`run`. -/
inductive Output where
  /-- `fmt.Println(proc)` -/
  | procDump (p : Proc)
  /-- `fmt.Println(children)` -/
  | childrenDump (cs : List Proc)
  /-- `fmt.Printf("attached %d\n", pid.Pid)` -/
  | attached (pid : Int)
  /-- `fmt.Printf("%d can't wait ptrace: %v\n", pid, err)` -/
  | waitError (pid : Int) (err : Errno)
  /-- `fmt.Printf("%d can't get regs ptrace: %v\n", pid, err)` -/
  | regsError (pid : Int) (err : Errno)
  /-- `fmt.Printf("Error PtracePeekData(...): %s\n", err)` -/
  | peekError (err : Errno)
  /-- `fmt.Printf("%d) [OUT] %q\n", pid, string(out))` -/
  | traceOut (pid : Int) (out : Bytes)
  /-- `fmt.Printf("%d) [IN] %q\n", pid, string(out))` -/
  | traceIn (pid : Int) (out : Bytes)
  deriving DecidableEq, Repr

/-- The renderings of the Go `fmt` package that the print statements rely on:
`%q` of a string, `%v` of an error, and `Println` of a record and of a slice of
records. -/
structure Formatter where
  quote : Bytes → String
  errText : Errno → String
  procText : Proc → String
  procsText : List Proc → String

/-- The text of an output line. -/
def Output.render (fmt : Formatter) : Output → String
  | .procDump p => fmt.procText p ++ "\n"
  | .childrenDump cs => fmt.procsText cs ++ "\n"
  | .attached pid => "attached " ++ toString pid ++ "\n"
  | .waitError pid err => toString pid ++ " can't wait ptrace: " ++ fmt.errText err ++ "\n"
  | .regsError pid err => toString pid ++ " can't get regs ptrace: " ++ fmt.errText err ++ "\n"
  | .peekError err => "Error PtracePeekData(...): " ++ fmt.errText err ++ "\n"
  | .traceOut pid out => toString pid ++ ") [OUT] " ++ fmt.quote out ++ "\n"
  | .traceIn pid out => toString pid ++ ") [IN] " ++ fmt.quote out ++ "\n"

/-- An observable action of `run`: a ptrace or wait call, or a printed line. -/
inductive Event where
  /-- `ptrace(PTRACE_SEIZE, pid, 0, options)` -/
  | seize (pid : Int)
  /-- `ptrace(PTRACE_INTERRUPT, pid, 0, 0)` -/
  | interrupt (pid : Int)
  /-- `syscall.Wait4(-1, &ws, 0x40000000, nil)` -/
  | wait4
  /-- `syscall.PtraceGetRegs(pid, &regs)` -/
  | getRegs (pid : Int)
  /-- `syscall.PtracePeekData(pid, addr, out)` with `len(out) = len` -/
  | peekData (pid : Int) (addr len : Nat)
  /-- `syscall.PtraceSyscall(pid, sig)` -/
  | resume (pid : Int) (sig : Int)
  | print (o : Output)
  deriving DecidableEq, Repr

/-- The printed lines among a sequence of events, in order. -/
def outputs (evs : List Event) : List Output :=
  evs.filterMap (fun e => match e with
    | .print o => some o
    | _ => none)

/-! ## The attach pass -/

/-- The answers of the kernel to the two attach requests, per task id: the
errno of the call, `0` meaning success. -/
structure AttachKernel where
  seize : Int → Errno
  interrupt : Int → Errno

/-- The error value returned by `TraceProc.attach`, naming the failed step. -/
inductive AttachError where
  /-- `fmt.Errorf("%d can't seize ptrace: %v\n", pid, errNo)` -/
  | cantSeize (pid : Int) (errNo : Errno)
  /-- `fmt.Errorf("%d can't interuppt ptrace: %v\n", pid, errNo)` -/
  | cantInterrupt (pid : Int) (errNo : Errno)
  deriving DecidableEq, Repr

/-- Go `func (p TraceProc) attach() error`: the kernel calls it makes and the
error it returns (`none` for `nil`). -/
def TraceProc.attach (k : AttachKernel) (p : TraceProc) : List Event × Option AttachError :=
  let pid := p.Pid
  if k.seize pid ≠ 0 then ([.seize pid], some (.cantSeize pid (k.seize pid)))
  else if k.interrupt pid ≠ 0 then
    ([.seize pid, .interrupt pid], some (.cantInterrupt pid (k.interrupt pid)))
  else ([.seize pid, .interrupt pid], none)

/-- Lines 207-210 of `run`: for every trace target, call `attach`, drop its
result, and print `attached <pid>`. -/
def attachPass (k : AttachKernel) : List TraceProc → List Event
  | [] => []
  | p :: rest => (p.attach k).1 ++ [.print (.attached p.Pid)] ++ attachPass k rest

/-! ## The dispatch loop -/

/-- The three fields of `syscall.PtraceRegs` that `run` reads (all `uint64`). -/
structure PtraceRegs where
  Orig_rax : Nat
  Rsi : Nat
  Rdx : Nat
  deriving DecidableEq, Repr

/-- Go `syscall.WaitStatus.Stopped` on Linux: `w&0xFF == 0x7F`. -/
def Stopped (w : Nat) : Bool := w % 256 == 0x7F

/-- Go `syscall.WaitStatus.StopSignal` on Linux: `-1` when the status is not a
stop, else `(w>>8) & 0xFF`. -/
def StopSignal (w : Nat) : Int :=
  if !Stopped w then -1 else (((w / 256) % 256 : Nat) : Int)

/-- The answers of the kernel, and the state of the Go heap, during one
iteration of the loop. -/
structure Stop where
  /-- Result of `Wait4`: an error, or the task id and its wait status. -/
  wait4 : Except Errno (Int × Nat)
  /-- Result of `PtraceGetRegs`. -/
  getRegs : Int → Except Errno PtraceRegs
  /-- The largest buffer the Go heap can hold during this iteration. -/
  heapLimit : Nat
  /-- The address space of every task: the byte at each address. -/
  mem : Int → Nat → Char
  /-- Whether a read of `len` bytes at `addr` fails, and if so after how many
  bytes were copied and with which error. -/
  peekFault : Int → Nat → Nat → Option (Nat × Errno)
  /-- Result of `PtraceSyscall(pid, sig)`: `none` for success. -/
  ptraceSyscall : Int → Int → Option Errno

/-- The `len` bytes of a task address space starting at `addr` (addresses are
64-bit). -/
def readMem (mem : Nat → Char) (addr len : Nat) : Bytes :=
  (List.range len).map (fun i => mem ((addr + i) % 2 ^ 64))

/-- Go `syscall.PtracePeekData(pid, addr, out)`: the content of `out` after the
call, and the error.  On success `out` holds the bytes of the task; on failure
the bytes copied before the error are in `out` and the rest is untouched. -/
def PtracePeekData (s : Stop) (pid : Int) (addr : Nat) (out : Bytes) : Bytes × Option Errno :=
  match s.peekFault pid addr out.length with
  | none => (readMem (s.mem pid) addr out.length, none)
  | some (n, e) =>
    (readMem (s.mem pid) addr (min n out.length) ++ out.drop (min n out.length), some e)

/-- The Go run-time bound on the size of one allocation on linux/amd64
(`maxAlloc`, 2^48 bytes). -/
def maxAlloc : Nat := 2 ^ 48

/-- Go `make([]byte, n)` for a `uint64` length `n`: a zeroed buffer of that
length, or `none` when the run-time system ends the program instead:
`makeslice` panics (len out of range) for a length above `maxAlloc`, and the
allocator stops the program when the heap cannot hold the buffer. -/
def makeBytes (s : Stop) (n : Nat) : Option Bytes :=
  if n ≤ maxAlloc ∧ n ≤ s.heapLimit then some (List.replicate n (Char.ofNat 0)) else none

/-- The body shared by the two cases of the `switch` (lines 233-237 and
240-244): allocate `regs.Rdx` zero bytes, peek at `regs.Rsi`, print the error
if any, then print the trace line built by `line`.  The result is `none` when
the allocation ends the program, which happens before the peek and the
print. -/
def traceBuffer (s : Stop) (pid : Int) (regs : PtraceRegs) (line : Int → Bytes → Output) :
    Option (List Event) :=
  match makeBytes s regs.Rdx with
  | none => none
  | some out =>
    let r := PtracePeekData s pid regs.Rsi out
    some ([Event.peekData pid regs.Rsi out.length]
      ++ (match r.2 with
          | some err => [Event.print (.peekError err)]
          | none => [])
      ++ [Event.print (line pid r.1)])

/-- The `switch orax := regs.Orig_rax` of `run` (lines 230-245): its events,
or `none` when the allocation in one of its cases ends the program. -/
def dispatch (s : Stop) (pid : Int) (regs : PtraceRegs) : Option (List Event) :=
  if regs.Orig_rax = 1 then traceBuffer s pid regs Output.traceOut
  else if regs.Orig_rax = 0 then traceBuffer s pid regs Output.traceIn
  else some []

/-- Lines 249-252 of `run`: the signal handed to the resume call. -/
def resumeSignal (ws : Nat) : Int :=
  let ss := StopSignal ws
  if 0 < ss ∧ ss < 31 then ss else 0

/-- How one iteration of the loop ends: it goes round again, the allocation of
the buffer ends the program, or `panic(err)` after a failed resume ends it. -/
inductive IterEnd where
  | next
  | allocAbort
  | panicked (err : Errno)
  deriving DecidableEq, Repr

/-- One iteration of the `for` loop of `run` (lines 213-256).  When `Wait4`
fails it returns `-1` as the id. -/
def iteration (s : Stop) : List Event × IterEnd :=
  match s.wait4 with
  | .error err => ([.wait4, .print (.waitError (-1) err)], .next)
  | .ok (pid, ws) =>
    match s.getRegs pid with
    | .error err => ([.wait4, .getRegs pid, .print (.regsError pid err)], .next)
    | .ok regs =>
      match dispatch s pid regs with
      | none => ([.wait4, .getRegs pid], .allocAbort)
      | some devs =>
        let sig := resumeSignal ws
        let evs := [Event.wait4, Event.getRegs pid] ++ devs ++ [Event.resume pid sig]
        match s.ptraceSyscall pid sig with
        | some err => (evs, .panicked err)
        | none => (evs, .next)

/-- How `run` ends, or that it is still looping once the scripted stops are
used up. -/
inductive RunEnd where
  /-- `log.Fatal(err)` in `loadProcs` -/
  | fatal (err : Errno)
  /-- index out of range in `loadProcs` -/
  | indexOutOfRange
  /-- the allocation `make([]byte, regs.Rdx)` ended the program -/
  | allocAbort
  /-- `panic(err)` after a failed `PtraceSyscall` -/
  | panicked (err : Errno)
  | running
  deriving DecidableEq, Repr

/-- The `for` loop of `run` (lines 212-257), the kernel answering the
successive iterations from `stops`. -/
def dispatchLoop : List Stop → List Event × RunEnd
  | [] => ([], .running)
  | s :: rest =>
    match iteration s with
    | (evs, .panicked err) => (evs, .panicked err)
    | (evs, .allocAbort) => (evs, .allocAbort)
    | (evs, .next) => (evs ++ (dispatchLoop rest).1, (dispatchLoop rest).2)

/-- Everything `run` asks of its environment. -/
structure World where
  fs : ProcFS
  kernel : AttachKernel
  stops : List Stop

/-- Lines 169-257 of `run`, from the snapshot returned by `loadProcs`. -/
def runFrom (w : World) (procs : List Proc) (pid : Int) : List Event × RunEnd :=
  let sel := selectTree procs pid
  let pidsToWatch := buildPidsToWatch sel.1 sel.2
  let evs := [Event.print (.procDump sel.1), Event.print (.childrenDump sel.2)]
    ++ attachPass w.kernel pidsToWatch
  (evs ++ (dispatchLoop w.stops).1, (dispatchLoop w.stops).2)

/-- Go `func run(pid int)`. -/
def run (w : World) (pid : Int) : List Event × RunEnd :=
  match loadProcs w.fs with
  | .fatal err => ([], .fatal err)
  | .indexOutOfRange => ([], .indexOutOfRange)
  | .procs procs => runFrom w procs pid

/-- The trace targets contributed by one process: its pid, then its other
threads. -/
def targetsOf (p : Proc) : List TraceProc :=
  NewTraceProc p.Pid :: (p.ThreadPids.filter (fun t => decide (t ≠ p.Pid))).map NewTraceProc

/-- The resume calls among a sequence of events: task id and signal. -/
def resumeCalls (evs : List Event) : List (Int × Int) :=
  evs.filterMap (fun e => match e with
    | .resume pid sig => some (pid, sig)
    | _ => none)

/-- The memory read of the dispatch step succeeds: the step makes the
`PtracePeekData` call for the `regs.Rdx` bytes at `regs.Rsi`, and the call
returns no error. -/
def peekSucceeds (s : Stop) (pid : Int) (regs : PtraceRegs) : Bool :=
  match dispatch s pid regs with
  | some evs =>
    evs.contains (Event.peekData pid regs.Rsi regs.Rdx)
      && (s.peekFault pid regs.Rsi regs.Rdx).isNone
  | none => false

/-- The status line of a process as the kernel writes it, following the field
list quoted in `loadProcs`: pid, command name in parentheses, state character,
parent pid, then the remaining fields, separated by single spaces. -/
def statLine (pid : Nat) (comm : Bytes) (state : Char) (ppid : Nat) (rest : Bytes) : Bytes :=
  (Nat.repr pid).toList ++ " (".toList ++ comm ++ ") ".toList ++ [state] ++ " ".toList
    ++ (Nat.repr ppid).toList ++ " ".toList ++ rest

/-! ## Concrete inputs used by the evaluations below -/

/-- A record whose parent id equals its own pid. -/
def selfParent : Proc :=
  { Pid := 5, Ppid := 5, Command := "(a".toList, State := 'b', ThreadPids := [5] }

/-- A process table with the single process 5, whose command name is
`a b 5 c`. -/
def selfParentFS : ProcFS :=
  { procDir := .ok [{ Name := "5".toList, IsDir := true }]
    statFile := fun _ => .ok "5 (a b 5 c) S 1 5 5 0 -1 4194304".toList
    taskDir := fun _ => .ok [{ Name := "5".toList, IsDir := true }] }

/-- A world whose process table holds the single process 6, in which seizing
task 0 fails with ESRCH (3), and whose one scripted wait fails with ECHILD
(10). -/
def noTargetWorld : World :=
  { fs :=
      { procDir := .ok [{ Name := "6".toList, IsDir := true }]
        statFile := fun _ => .ok "6 (sh) S 1 6 6 0 -1 4194304".toList
        taskDir := fun _ => .ok [{ Name := "6".toList, IsDir := true }] }
    kernel := { seize := fun _ => 3, interrupt := fun _ => 3 }
    stops :=
      [{ wait4 := .error 10
         getRegs := fun _ => .error 3
         heapLimit := 2 ^ 30
         mem := fun _ _ => Char.ofNat 0
         peekFault := fun _ _ _ => none
         ptraceSyscall := fun _ _ => some 3 }] }

/-- The snapshot read from the process table of `noTargetWorld`. -/
def noTargetSnapshot : List Proc :=
  [{ Pid := 6, Ppid := 1, Command := "(sh)".toList, State := 'S', ThreadPids := [6] }]

/-- A target with two threads. -/
def demoTarget : Proc :=
  { Pid := 100, Ppid := 1, Command := "(srv)".toList, State := 'S', ThreadPids := [100, 101] }

/-- A child of `demoTarget` with one extra thread. -/
def demoChild : Proc :=
  { Pid := 200, Ppid := 100, Command := "(wrk)".toList, State := 'S', ThreadPids := [200, 201] }

/-- An unrelated process. -/
def demoOther : Proc :=
  { Pid := 300, Ppid := 1, Command := "(sh)".toList, State := 'S', ThreadPids := [300] }

/-- An attach environment in which seizing task 7 fails with ESRCH (3) and
every other request succeeds. -/
def seizeFails7 : AttachKernel :=
  { seize := fun pid => if pid = 7 then 3 else 0, interrupt := fun _ => 0 }

/-- An attach environment in which task 7 is seized but its interrupt fails
with ESRCH (3). -/
def interruptFails7 : AttachKernel :=
  { seize := fun _ => 0, interrupt := fun pid => if pid = 7 then 3 else 0 }

/-- A process table with the processes 6 and 7; both status files are
readable, and the thread listing of 7 has vanished (ENOENT, 2). -/
def taskGoneFS : ProcFS :=
  { procDir := .ok [{ Name := "6".toList, IsDir := true }, { Name := "7".toList, IsDir := true }]
    statFile := fun n =>
      if n = "6".toList then .ok "6 (sh) S 1 6 6 0 -1 4194304".toList
      else .ok "7 (cat) R 6 7 6 0 -1 4194304".toList
    taskDir := fun n =>
      if n = "6".toList then .ok [{ Name := "6".toList, IsDir := true }] else .error 2 }

/-- The same process table, except that it is the status file of 7 that has
vanished. -/
def statGoneFS : ProcFS :=
  { procDir := .ok [{ Name := "6".toList, IsDir := true }, { Name := "7".toList, IsDir := true }]
    statFile := fun n =>
      if n = "6".toList then .ok "6 (sh) S 1 6 6 0 -1 4194304".toList else .error 2
    taskDir := fun _ => .ok [{ Name := "6".toList, IsDir := true }] }

/-- A process table with the single process 5, whose command name is `a  1 b`
(two consecutive spaces). -/
def doubleSpaceFS : ProcFS :=
  { procDir := .ok [{ Name := "5".toList, IsDir := true }]
    statFile := fun _ => .ok "5 (a  1 b) S 1 5 5 0 -1 4194304".toList
    taskDir := fun _ => .ok [{ Name := "5".toList, IsDir := true }] }

/-- The memory of the demo task: `hi` at address 4096, zero elsewhere. -/
def demoMem : Int → Nat → Char :=
  fun _ a => if a = 4096 then 'h' else if a = 4097 then 'i' else Char.ofNat 0

/-- A stop of task 42 with the given wait status and registers, in which every
kernel call succeeds. -/
def demoStop (ws : Nat) (regs : PtraceRegs) : Stop :=
  { wait4 := .ok (42, ws)
    getRegs := fun _ => .ok regs
    heapLimit := 2 ^ 30
    mem := demoMem
    peekFault := fun _ _ _ => none
    ptraceSyscall := fun _ _ => none }

/-- A stop in which `Wait4` fails with ECHILD (10). -/
def waitFailStop : Stop :=
  { demoStop 0x857F { Orig_rax := 1, Rsi := 4096, Rdx := 2 } with wait4 := .error 10 }

/-- A stop of task 42 in which `PtraceGetRegs` fails with ESRCH (3). -/
def regsFailStop : Stop :=
  { demoStop 0x857F { Orig_rax := 1, Rsi := 4096, Rdx := 2 } with getRegs := fun _ => .error 3 }

/-- A `write` stop of task 42 in which the memory read fails with EIO (5)
after one byte. -/
def peekFailStop : Stop :=
  { demoStop 0x857F { Orig_rax := 1, Rsi := 4096, Rdx := 2 } with
    peekFault := fun _ _ _ => some (1, 5) }

/-- A `write` stop of task 42 in which the resume call fails with ESRCH (3). -/
def resumeFailStop : Stop :=
  { demoStop 0x857F { Orig_rax := 1, Rsi := 4096, Rdx := 2 } with
    ptraceSyscall := fun _ _ => some 3 }

/-- The stop of task 42 at the entry of `write(1, buf, -1)`: syscall number 1
and a length register of 2^64 - 1.  Wait, register read and resume succeed; a
read of that many bytes would fault with EIO (5) after the two mapped bytes. -/
def hugeWriteStop : Stop :=
  { demoStop 0x857F { Orig_rax := 1, Rsi := 4096, Rdx := 2 ^ 64 - 1 } with
    peekFault := fun _ _ _ => some (2, 5) }

/-- A formatter used for evaluation: `%q` wraps the bytes in brackets. -/
def demoFormatter : Formatter :=
  { quote := fun b => "<" ++ String.mk b ++ ">"
    errText := fun e => "errno " ++ toString e
    procText := fun _ => "proc"
    procsText := fun _ => "procs" }

/-! ## Tree selection -/

/-- The children component of the selection loop only ever grows by the
records that are not the target and whose parent is the target. -/
theorem foldl_selectStep_snd (pid : Int) (procs : List Proc) (st : Proc × List Proc) :
    (procs.foldl (selectStep pid) st).2
      = st.2 ++ procs.filter (fun p => decide (p.Pid ≠ pid ∧ p.Ppid = pid)) := by
  induction procs generalizing st with
  | nil => simp
  | cons p rest ih =>
    rw [List.foldl_cons, ih]
    by_cases h1 : p.Pid = pid
    · simp [selectStep, h1]
    · by_cases h2 : p.Ppid = pid
      · simp [selectStep, h1, h2]
      · simp [selectStep, h1, h2]

/-- Records with another pid leave the target component alone. -/
theorem foldl_selectStep_fst_of_absent (pid : Int) (procs : List Proc) (st : Proc × List Proc)
    (h : ∀ p ∈ procs, p.Pid ≠ pid) : (procs.foldl (selectStep pid) st).1 = st.1 := by
  induction procs generalizing st with
  | nil => rfl
  | cons p rest ih =>
    have hp : p.Pid ≠ pid := h p (List.mem_cons_self _ _)
    rw [List.foldl_cons, ih _ (fun q hq => h q (List.mem_cons_of_mem _ hq))]
    by_cases h2 : p.Ppid = pid <;> simp [selectStep, hp, h2]

/-- With unique pids, the target component ends as the record with that pid. -/
theorem foldl_selectStep_fst_of_mem (pid : Int) (procs : List Proc) (st : Proc × List Proc)
    (t : Proc) (hnd : (procs.map Proc.Pid).Nodup) (ht : t ∈ procs) (hP : t.Pid = pid) :
    (procs.foldl (selectStep pid) st).1 = t := by
  induction procs generalizing st with
  | nil => cases ht
  | cons p rest ih =>
    rw [List.map_cons, List.nodup_cons] at hnd
    rw [List.foldl_cons]
    rcases List.mem_cons.mp ht with heq | hmem
    · subst heq
      have habs : ∀ q ∈ rest, q.Pid ≠ pid := by
        intro q hq hqp
        exact hnd.1 (List.mem_map.mpr ⟨q, hq, by rw [hqp, hP]⟩)
      rw [foldl_selectStep_fst_of_absent pid rest _ habs]
      simp [selectStep, hP]
    · exact ih _ hnd.2 hmem

/-- The closed form of the trace targets added by one thread loop. -/
theorem watchThreads_eq (owner : Int) (threads : List Int) (acc : List TraceProc) :
    watchThreads owner threads acc
      = acc ++ (threads.filter (fun t => decide (t ≠ owner))).map NewTraceProc := by
  unfold watchThreads
  induction threads generalizing acc with
  | nil => simp
  | cons t rest ih =>
    rw [List.foldl_cons, ih]
    by_cases h : t = owner <;> simp [h]

/-- The closed form of the loop over the children. -/
theorem foldl_children_eq (children : List Proc) (acc : List TraceProc) :
    children.foldl
        (fun acc c => watchThreads c.Pid c.ThreadPids (acc ++ [NewTraceProc c.Pid])) acc
      = acc ++ children.flatMap targetsOf := by
  induction children generalizing acc with
  | nil => simp
  | cons c rest ih =>
    rw [List.foldl_cons, ih, watchThreads_eq, List.flatMap_cons]
    simp [targetsOf]

/-- Removing the owner from a duplicate-free thread list that contains it
shortens the list by one. -/
theorem length_filter_ne_owner (owner : Int) (threads : List Int) (hnd : threads.Nodup)
    (hmem : owner ∈ threads) :
    (threads.filter (fun t => decide (t ≠ owner))).length = threads.length - 1 := by
  have h := List.Nodup.erase_eq_filter hnd owner
  have h2 : List.filter (fun x => x != owner) threads
      = List.filter (fun t => decide (t ≠ owner)) threads := by
    congr 1
    funext x
    by_cases hx : x = owner <;> simp [hx]
  rw [← h2, ← h, List.length_erase_of_mem hmem]

/-- C3 (as amended): for every snapshot with unique pids that contains a record
`t` with pid `P`, the selection loop of `run` yields `t` as the target and, as
children, the records other than the target whose parent pid is `P`, in
snapshot order. -/
theorem selectTree_target_and_children (procs : List Proc) (P : Int) (t : Proc)
    (hnd : (procs.map Proc.Pid).Nodup) (ht : t ∈ procs) (hP : t.Pid = P) :
    selectTree procs P
      = (t, procs.filter (fun p => decide (p.Pid ≠ P ∧ p.Ppid = P))) := by
  unfold selectTree
  apply Prod.ext
  · exact foldl_selectStep_fst_of_mem P procs _ t hnd ht hP
  · rw [foldl_selectStep_snd]
    rfl

/-- Witness for C3: a snapshot with the target, one child and one unrelated
record. -/
theorem selectTree_target_and_children_witness :
    selectTree [demoOther, demoTarget, demoChild] 100
      = (demoTarget,
          [demoOther, demoTarget, demoChild].filter
            (fun p => decide (p.Pid ≠ 100 ∧ p.Ppid = 100))) :=
  selectTree_target_and_children [demoOther, demoTarget, demoChild] 100 demoTarget
    (by decide) (by decide) (by decide)

/-- C3 (as stated) fails: the snapshot read from `selfParentFS` has unique pids
and holds a record with pid 5 whose parent id is also 5; the selection loop
returns no children, while the sub-list of records whose parent pid is 5 is not
empty. -/
theorem selectTree_children_counterexample :
    loadProcs selfParentFS = .procs [selfParent]
      ∧ ([selfParent].map Proc.Pid).Nodup
      ∧ selfParent ∈ [selfParent]
      ∧ selfParent.Pid = 5
      ∧ selectTree [selfParent] 5 = (selfParent, [])
      ∧ [selfParent].filter (fun p => decide (p.Ppid = 5)) = [selfParent]
      ∧ selectTree [selfParent] 5
          ≠ (selfParent, [selfParent].filter (fun p => decide (p.Ppid = 5))) := by
  decide

/-- C4 (as amended): tree selection never fails.  For every process table
whose snapshot is read and every target pid `P`, `run` prints the selected
records, runs the attach pass on the trace targets built from them and enters
the dispatch loop.  When no record has pid `P`, the target is the zero record,
the trace targets are id 0 followed by the targets of the records whose parent
pid is `P`, and the attach pass begins by trying to seize task 0. -/
theorem selection_never_fails (w : World) (procs : List Proc) (P : Int)
    (hload : loadProcs w.fs = .procs procs) :
    run w P
        = ([Event.print (.procDump (selectTree procs P).1),
            Event.print (.childrenDump (selectTree procs P).2)]
            ++ attachPass w.kernel
                (buildPidsToWatch (selectTree procs P).1 (selectTree procs P).2)
            ++ (dispatchLoop w.stops).1,
           (dispatchLoop w.stops).2)
      ∧ ((∀ p ∈ procs, p.Pid ≠ P) →
          selectTree procs P = (Proc.zero, procs.filter (fun p => decide (p.Ppid = P)))
          ∧ buildPidsToWatch (selectTree procs P).1 (selectTree procs P).2
              = NewTraceProc 0 :: (procs.filter (fun p => decide (p.Ppid = P))).flatMap targetsOf
          ∧ (attachPass w.kernel
                (buildPidsToWatch (selectTree procs P).1 (selectTree procs P).2)).head?
              = some (Event.seize 0)) := by
  refine ⟨by simp [run, hload, runFrom], fun h => ?_⟩
  have hsel : selectTree procs P
      = (Proc.zero, procs.filter (fun p => decide (p.Ppid = P))) := by
    unfold selectTree
    apply Prod.ext
    · exact foldl_selectStep_fst_of_absent P procs _ h
    · rw [foldl_selectStep_snd]
      simp only [List.nil_append]
      apply List.filter_congr
      intro p hp
      simp [h p hp]
  have hbuild : buildPidsToWatch Proc.zero (procs.filter (fun p => decide (p.Ppid = P)))
      = NewTraceProc 0 :: (procs.filter (fun p => decide (p.Ppid = P))).flatMap targetsOf := by
    unfold buildPidsToWatch
    rw [foldl_children_eq, watchThreads_eq]
    simp [Proc.zero]
  refine ⟨hsel, by rw [hsel]; exact hbuild, ?_⟩
  rw [hsel]
  simp only [hbuild]
  by_cases hs : w.kernel.seize 0 ≠ 0
  · simp [attachPass, TraceProc.attach, NewTraceProc, hs]
  · by_cases hi : w.kernel.interrupt 0 ≠ 0 <;>
      simp [attachPass, TraceProc.attach, NewTraceProc, hs, hi]

/-- Witness for C4: the process table holding only process 6 and the target
pid 5. -/
theorem selection_never_fails_witness :
    loadProcs noTargetWorld.fs = .procs noTargetSnapshot
      ∧ (∀ p ∈ noTargetSnapshot, p.Pid ≠ 5)
      ∧ selectTree noTargetSnapshot 5 = (Proc.zero, [])
      ∧ (attachPass noTargetWorld.kernel
            (buildPidsToWatch (selectTree noTargetSnapshot 5).1
              (selectTree noTargetSnapshot 5).2)).head?
          = some (Event.seize 0) :=
  ⟨by decide, by decide,
   ((selection_never_fails noTargetWorld noTargetSnapshot 5 (by decide)).2 (by decide)).1,
   ((selection_never_fails noTargetWorld noTargetSnapshot 5 (by decide)).2 (by decide)).2.2⟩

/-- C4 (as stated) fails: the process table holds only process 6, so no record
has pid 5, yet `run 5` reports no failure: it builds the trace target 0, tries
to seize it, prints `attached 0` and enters the dispatch loop, where the wait
fails and is retried. -/
theorem selection_not_found_counterexample :
    loadProcs noTargetWorld.fs = .procs noTargetSnapshot
      ∧ (∀ p ∈ noTargetSnapshot, p.Pid ≠ 5)
      ∧ run noTargetWorld 5
          = ([Event.print (.procDump Proc.zero), Event.print (.childrenDump []),
              Event.seize 0, Event.print (.attached 0),
              Event.wait4, Event.print (.waitError (-1) 10)], RunEnd.running) := by
  decide

/-- C5: the trace targets are the target pid, then its thread ids other than
its own pid, then for each child in order the child pid followed by its thread
ids other than its own pid; a target with two threads and one child with one
extra thread gives exactly four trace targets. -/
theorem buildPidsToWatch_spec (proc : Proc) (children : List Proc) :
    buildPidsToWatch proc children
        = NewTraceProc proc.Pid
            :: (proc.ThreadPids.filter (fun t => decide (t ≠ proc.Pid))).map NewTraceProc
          ++ children.flatMap (fun c =>
              NewTraceProc c.Pid
                :: (c.ThreadPids.filter (fun t => decide (t ≠ c.Pid))).map NewTraceProc)
      ∧ (∀ c : Proc, children = [c] →
          proc.ThreadPids.Nodup → proc.Pid ∈ proc.ThreadPids → proc.ThreadPids.length = 2 →
          c.ThreadPids.Nodup → c.Pid ∈ c.ThreadPids → c.ThreadPids.length = 2 →
          (buildPidsToWatch proc children).length = 4) := by
  have hform : buildPidsToWatch proc children
      = NewTraceProc proc.Pid
          :: (proc.ThreadPids.filter (fun t => decide (t ≠ proc.Pid))).map NewTraceProc
        ++ children.flatMap targetsOf := by
    unfold buildPidsToWatch
    rw [foldl_children_eq, watchThreads_eq]
    simp
  refine ⟨hform, ?_⟩
  intro c hc hnd hmem hlen hcnd hcmem hclen
  rw [hform, hc]
  simp only [List.flatMap_cons, List.flatMap_nil, targetsOf, List.length_append,
    List.length_cons, List.length_map, List.length_nil,
    length_filter_ne_owner _ _ hnd hmem, length_filter_ne_owner _ _ hcnd hcmem, hlen, hclen]

/-- Witness for C5: the target 100 with threads 100 and 101 and the child 200
with threads 200 and 201 give the four trace targets 100, 101, 200, 201. -/
theorem buildPidsToWatch_spec_witness :
    buildPidsToWatch demoTarget [demoChild]
        = [NewTraceProc 100, NewTraceProc 101, NewTraceProc 200, NewTraceProc 201]
      ∧ (buildPidsToWatch demoTarget [demoChild]).length = 4 :=
  ⟨by decide,
   (buildPidsToWatch_spec demoTarget [demoChild]).2 demoChild rfl
     (by decide) (by decide) (by decide) (by decide) (by decide) (by decide)⟩

/-! ## The dispatch step -/

/-- The buffer read from a task has the requested length. -/
theorem readMem_length (mem : Nat → Char) (addr len : Nat) :
    (readMem mem addr len).length = len := by
  simp [readMem]

/-- Byte `i` of the buffer read from a task is the byte at address
`addr + i`. -/
theorem readMem_get (mem : Nat → Char) (addr len i : Nat) (h : i < len) :
    (readMem mem addr len).get? i = some (mem ((addr + i) % 2 ^ 64)) := by
  simp [readMem, List.getElem?_map, List.getElem?_range h]

/-- The events of one case of the switch when the buffer is allocated and the
memory read succeeds. -/
theorem traceBuffer_of_readable (s : Stop) (pid : Int) (regs : PtraceRegs)
    (line : Int → Bytes → Output) (hfit : regs.Rdx ≤ maxAlloc ∧ regs.Rdx ≤ s.heapLimit)
    (h : s.peekFault pid regs.Rsi regs.Rdx = none) :
    traceBuffer s pid regs line
      = some [Event.peekData pid regs.Rsi regs.Rdx,
          Event.print (line pid (readMem (s.mem pid) regs.Rsi regs.Rdx))] := by
  simp [traceBuffer, makeBytes, hfit, PtracePeekData, h]

/-- The events of one case of the switch when the buffer is allocated and the
memory read fails after `n` bytes: the error line precedes the trace line. -/
theorem traceBuffer_of_fault (s : Stop) (pid : Int) (regs : PtraceRegs)
    (line : Int → Bytes → Output) (n : Nat) (err : Errno)
    (hfit : regs.Rdx ≤ maxAlloc ∧ regs.Rdx ≤ s.heapLimit)
    (h : s.peekFault pid regs.Rsi regs.Rdx = some (n, err)) :
    traceBuffer s pid regs line
      = some [Event.peekData pid regs.Rsi regs.Rdx, Event.print (.peekError err),
          Event.print (line pid
            (readMem (s.mem pid) regs.Rsi (min n regs.Rdx)
              ++ List.replicate (regs.Rdx - min n regs.Rdx) (Char.ofNat 0)))] := by
  simp [traceBuffer, makeBytes, hfit, PtracePeekData, h]

/-- A case of the switch ends the program exactly when the buffer cannot be
allocated. -/
theorem traceBuffer_eq_none_iff (s : Stop) (pid : Int) (regs : PtraceRegs)
    (line : Int → Bytes → Output) :
    traceBuffer s pid regs line = none ↔ ¬ (regs.Rdx ≤ maxAlloc ∧ regs.Rdx ≤ s.heapLimit) := by
  by_cases hfit : regs.Rdx ≤ maxAlloc ∧ regs.Rdx ≤ s.heapLimit
  · simp [traceBuffer, makeBytes, hfit]
  · simp only [traceBuffer, makeBytes, hfit, if_false, not_false_eq_true]

/-- The memory read of one case of the switch succeeds exactly when the buffer
is allocated and the kernel reports no fault. -/
theorem traceBuffer_peek_iff (s : Stop) (pid : Int) (regs : PtraceRegs)
    (line : Int → Bytes → Output) :
    (match traceBuffer s pid regs line with
      | some evs =>
        evs.contains (Event.peekData pid regs.Rsi regs.Rdx)
          && (s.peekFault pid regs.Rsi regs.Rdx).isNone
      | none => false) = true
      ↔ (regs.Rdx ≤ maxAlloc ∧ regs.Rdx ≤ s.heapLimit)
          ∧ s.peekFault pid regs.Rsi regs.Rdx = none := by
  by_cases hfit : regs.Rdx ≤ maxAlloc ∧ regs.Rdx ≤ s.heapLimit
  · cases hp : s.peekFault pid regs.Rsi regs.Rdx with
    | none => simp [traceBuffer_of_readable s pid regs line hfit hp, hfit]
    | some v =>
      obtain ⟨n, e⟩ := v
      simp [traceBuffer_of_fault s pid regs line n e hfit hp]
  · rw [(traceBuffer_eq_none_iff s pid regs line).mpr hfit]
    simp [hfit]

/-- The memory read of the dispatch step succeeds exactly when the syscall
number is 0 or 1, the buffer is allocated and the kernel reports no fault. -/
theorem peekSucceeds_iff (s : Stop) (pid : Int) (regs : PtraceRegs) :
    peekSucceeds s pid regs = true
      ↔ (regs.Orig_rax = 1 ∨ regs.Orig_rax = 0)
          ∧ (regs.Rdx ≤ maxAlloc ∧ regs.Rdx ≤ s.heapLimit)
          ∧ s.peekFault pid regs.Rsi regs.Rdx = none := by
  unfold peekSucceeds dispatch
  by_cases h1 : regs.Orig_rax = 1
  · simp only [h1, if_true, true_or, true_and]
    exact traceBuffer_peek_iff s pid regs _
  · by_cases h0 : regs.Orig_rax = 0
    · simp only [h0, if_true, or_true, true_and]
      simp only [show ¬ ((0 : Nat) = 1) by decide, if_false]
      exact traceBuffer_peek_iff s pid regs _
    · simp [h1, h0]

/-- Neither case of the switch makes a resume call. -/
theorem resumeCalls_traceBuffer (s : Stop) (pid : Int) (regs : PtraceRegs)
    (line : Int → Bytes → Output) (evs : List Event)
    (h : traceBuffer s pid regs line = some evs) : resumeCalls evs = [] := by
  by_cases hfit : regs.Rdx ≤ maxAlloc ∧ regs.Rdx ≤ s.heapLimit
  · cases hp : s.peekFault pid regs.Rsi regs.Rdx with
    | none =>
      rw [traceBuffer_of_readable _ _ _ _ hfit hp] at h
      cases h
      rfl
    | some v =>
      obtain ⟨n, e⟩ := v
      rw [traceBuffer_of_fault _ _ _ _ n e hfit hp] at h
      cases h
      rfl
  · rw [(traceBuffer_eq_none_iff s pid regs line).mpr hfit] at h
    cases h

/-- The switch makes no resume call. -/
theorem resumeCalls_dispatch (s : Stop) (pid : Int) (regs : PtraceRegs) (evs : List Event)
    (h : dispatch s pid regs = some evs) : resumeCalls evs = [] := by
  unfold dispatch at h
  split at h
  · exact resumeCalls_traceBuffer _ _ _ _ _ h
  · split at h
    · exact resumeCalls_traceBuffer _ _ _ _ _ h
    · cases h
      rfl

/-- C1: for every task id and register snapshot, when the memory read of the
step succeeds, syscall number 1 makes the dispatch step print exactly one line
`<id>) [OUT] <quoted bytes>` and syscall number 0 exactly one line
`<id>) [IN] <quoted bytes>`, the payload being the `rdx` bytes of the task
memory starting at address `rsi`; any other syscall number prints nothing.
The memory read succeeds when the step makes the call and the kernel reports
no fault, which requires that the buffer of `rdx` bytes was allocated. -/
theorem dispatch_spec (s : Stop) (pid : Int) (regs : PtraceRegs) (fmt : Formatter) :
    (regs.Orig_rax = 1 → peekSucceeds s pid regs = true →
        dispatch s pid regs
          = some [Event.peekData pid regs.Rsi regs.Rdx,
              Event.print (.traceOut pid (readMem (s.mem pid) regs.Rsi regs.Rdx))])
      ∧ (regs.Orig_rax = 0 → peekSucceeds s pid regs = true →
        dispatch s pid regs
          = some [Event.peekData pid regs.Rsi regs.Rdx,
              Event.print (.traceIn pid (readMem (s.mem pid) regs.Rsi regs.Rdx))])
      ∧ (regs.Orig_rax ≠ 1 → regs.Orig_rax ≠ 0 → dispatch s pid regs = some [])
      ∧ (readMem (s.mem pid) regs.Rsi regs.Rdx).length = regs.Rdx
      ∧ (∀ i, i < regs.Rdx →
          (readMem (s.mem pid) regs.Rsi regs.Rdx).get? i
            = some (s.mem pid ((regs.Rsi + i) % 2 ^ 64)))
      ∧ (∀ out, (Output.traceOut pid out).render fmt
          = toString pid ++ ") [OUT] " ++ fmt.quote out ++ "\n")
      ∧ (∀ out, (Output.traceIn pid out).render fmt
          = toString pid ++ ") [IN] " ++ fmt.quote out ++ "\n")
      ∧ (peekSucceeds s pid regs = true
          ↔ (regs.Orig_rax = 1 ∨ regs.Orig_rax = 0)
              ∧ (regs.Rdx ≤ maxAlloc ∧ regs.Rdx ≤ s.heapLimit)
              ∧ s.peekFault pid regs.Rsi regs.Rdx = none) := by
  refine ⟨?_, ?_, ?_, readMem_length _ _ _, fun i hi => readMem_get _ _ _ i hi,
    fun _ => rfl, fun _ => rfl, peekSucceeds_iff s pid regs⟩
  · intro h1 hp
    obtain ⟨_, hfit, hnone⟩ := (peekSucceeds_iff s pid regs).mp hp
    simp [dispatch, h1, traceBuffer_of_readable s pid regs _ hfit hnone]
  · intro h0 hp
    obtain ⟨_, hfit, hnone⟩ := (peekSucceeds_iff s pid regs).mp hp
    simp [dispatch, h0, traceBuffer_of_readable s pid regs _ hfit hnone]
  · intro h1 h0
    simp [dispatch, h1, h0]

/-- Witness for C1: task 42 stops in `write(_, 4096, 2)` resp. `read(_, 4096, 2)`
with `hi` at address 4096; the step prints `42) [OUT] <hi>` resp.
`42) [IN] <hi>` under the demo formatter. -/
theorem dispatch_spec_witness :
    peekSucceeds (demoStop 0x857F { Orig_rax := 1, Rsi := 4096, Rdx := 2 }) 42
        { Orig_rax := 1, Rsi := 4096, Rdx := 2 } = true
      ∧ dispatch (demoStop 0x857F { Orig_rax := 1, Rsi := 4096, Rdx := 2 }) 42
        { Orig_rax := 1, Rsi := 4096, Rdx := 2 }
        = some [Event.peekData 42 4096 2,
            Event.print (.traceOut 42 (readMem (demoMem 42) 4096 2))]
      ∧ dispatch (demoStop 0x857F { Orig_rax := 0, Rsi := 4096, Rdx := 2 }) 42
        { Orig_rax := 0, Rsi := 4096, Rdx := 2 }
        = some [Event.peekData 42 4096 2,
            Event.print (.traceIn 42 (readMem (demoMem 42) 4096 2))]
      ∧ dispatch (demoStop 0x857F { Orig_rax := 39, Rsi := 4096, Rdx := 2 }) 42
        { Orig_rax := 39, Rsi := 4096, Rdx := 2 } = some []
      ∧ readMem (demoMem 42) 4096 2 = "hi".toList
      ∧ (Output.traceOut 42 "hi".toList).render demoFormatter = "42) [OUT] <hi>\n" :=
  ⟨by decide,
   (dispatch_spec (demoStop 0x857F { Orig_rax := 1, Rsi := 4096, Rdx := 2 }) 42
      { Orig_rax := 1, Rsi := 4096, Rdx := 2 } demoFormatter).1 rfl (by decide),
   (dispatch_spec (demoStop 0x857F { Orig_rax := 0, Rsi := 4096, Rdx := 2 }) 42
      { Orig_rax := 0, Rsi := 4096, Rdx := 2 } demoFormatter).2.1 rfl (by decide),
   (dispatch_spec (demoStop 0x857F { Orig_rax := 39, Rsi := 4096, Rdx := 2 }) 42
      { Orig_rax := 39, Rsi := 4096, Rdx := 2 } demoFormatter).2.2.1 (by decide) (by decide),
   by decide, by decide⟩

/-! ## Signal forwarding -/

/-- The resume calls of an iteration in which wait and register read succeed:
one call with the computed signal, unless the allocation in the switch ended
the program before it. -/
theorem resumeCalls_iteration (s : Stop) (pid : Int) (ws : Nat) (regs : PtraceRegs)
    (hw : s.wait4 = .ok (pid, ws)) (hr : s.getRegs pid = .ok regs) :
    ((iteration s).2 = .allocAbort ∧ dispatch s pid regs = none
        ∧ resumeCalls (iteration s).1 = [])
      ∨ ((iteration s).2 ≠ .allocAbort ∧ (∃ evs, dispatch s pid regs = some evs)
        ∧ resumeCalls (iteration s).1 = [(pid, resumeSignal ws)]) := by
  cases hd : dispatch s pid regs with
  | none =>
    left
    simp [iteration, hw, hr, hd, resumeCalls]
  | some evs =>
    right
    have hnone := resumeCalls_dispatch s pid regs evs hd
    unfold resumeCalls at hnone
    cases hp : s.ptraceSyscall pid (resumeSignal ws) <;>
      simp [iteration, hw, hr, hd, hp, resumeCalls, List.filterMap_append, hnone]

/-- C2: for every wait status, every resume call of the iteration carries the
stop signal of the status when that signal is positive and below 31, and
signal 0 otherwise; the call is made once in every iteration that reaches it
(wait and register read succeed and the switch does not end the program).  A
stop signal 17 is forwarded as 17 and a stop signal 0 forwards no signal. -/
theorem resume_forwards_stop_signal (s : Stop) (pid : Int) (ws : Nat) (regs : PtraceRegs)
    (hw : s.wait4 = .ok (pid, ws)) (hr : s.getRegs pid = .ok regs) :
    (∀ c ∈ resumeCalls (iteration s).1,
        c = (pid, if 0 < StopSignal ws ∧ StopSignal ws < 31 then StopSignal ws else 0))
      ∧ ((iteration s).2 ≠ .allocAbort →
          resumeCalls (iteration s).1
            = [(pid, if 0 < StopSignal ws ∧ StopSignal ws < 31 then StopSignal ws else 0)])
      ∧ ((iteration s).2 ≠ .allocAbort → StopSignal ws = 17 →
          resumeCalls (iteration s).1 = [(pid, 17)])
      ∧ ((iteration s).2 ≠ .allocAbort → StopSignal ws = 0 →
          resumeCalls (iteration s).1 = [(pid, 0)]) := by
  have hsig : resumeSignal ws
      = if 0 < StopSignal ws ∧ StopSignal ws < 31 then StopSignal ws else 0 := rfl
  rcases resumeCalls_iteration s pid ws regs hw hr with ⟨habort, _, hcalls⟩ | ⟨_, _, hcalls⟩
  · refine ⟨?_, fun h => absurd habort h, fun h => absurd habort h, fun h => absurd habort h⟩
    intro c hc
    rw [hcalls] at hc
    cases hc
  · rw [hcalls, hsig]
    refine ⟨?_, fun _ => rfl, ?_, ?_⟩
    · intro c hc
      exact List.mem_singleton.mp hc
    · intro _ h17
      simp [h17]
    · intro _ h0
      simp [h0]

/-- Witness for C2: task 42 stopped by signal 17 (wait status `0x117F`) is
resumed with signal 17. -/
theorem resume_forwards_stop_signal_witness :
    StopSignal 0x117F = 17
      ∧ (iteration (demoStop 0x117F { Orig_rax := 39, Rsi := 0, Rdx := 0 })).2 ≠ .allocAbort
      ∧ resumeCalls (iteration (demoStop 0x117F { Orig_rax := 39, Rsi := 0, Rdx := 0 })).1
          = [(42, 17)] :=
  ⟨by decide, by decide,
   (resume_forwards_stop_signal (demoStop 0x117F { Orig_rax := 39, Rsi := 0, Rdx := 0 }) 42
      0x117F { Orig_rax := 39, Rsi := 0, Rdx := 0 } rfl rfl).2.2.1 (by decide) (by decide)⟩

/-- Stop signals 31 and 32 (wait statuses `0x1F7F` and `0x207F`) lie outside
the forwarded range: the task is resumed with signal 0. -/
theorem stop_signal_31_not_forwarded :
    StopSignal 0x1F7F = 31
      ∧ resumeCalls (iteration (demoStop 0x1F7F { Orig_rax := 39, Rsi := 0, Rdx := 0 })).1
          = [(42, 0)]
      ∧ StopSignal 0x207F = 32
      ∧ resumeCalls (iteration (demoStop 0x207F { Orig_rax := 39, Rsi := 0, Rdx := 0 })).1
          = [(42, 0)] := by
  decide

/-! ## Error policy of the dispatch loop -/

/-- C9 (evaluation at the failing input): task 42 stops at the entry of
`write(1, buf, -1)`, so the length register is 2^64 - 1.  Wait and register
read succeed and the resume call would succeed, yet the iteration ends the
program in the allocation `make([]byte, regs.Rdx)`: nothing is printed, no
resume call is made and the loop does not reach the next wait. -/
theorem iteration_ends_in_allocation :
    hugeWriteStop.wait4 = .ok (42, 0x857F)
      ∧ hugeWriteStop.getRegs 42 = .ok { Orig_rax := 1, Rsi := 4096, Rdx := 2 ^ 64 - 1 }
      ∧ hugeWriteStop.ptraceSyscall 42 (resumeSignal 0x857F) = none
      ∧ iteration hugeWriteStop = ([Event.wait4, Event.getRegs 42], IterEnd.allocAbort)
      ∧ resumeCalls (iteration hugeWriteStop).1 = []
      ∧ dispatchLoop [hugeWriteStop, waitFailStop]
          = ([Event.wait4, Event.getRegs 42], RunEnd.allocAbort) :=
  ⟨rfl, rfl, by decide, by decide, by decide, by decide⟩

/-- The error policy of one iteration outside the allocation.  `panic(err)`
ends the loop exactly when the resume call fails; the allocation ends it
exactly when wait and register read succeed and the switch cannot allocate its
buffer.  A failed wait or register read is printed and the iteration makes no
further call; when the buffer is allocated, a failed memory read is printed,
the trace line is still printed and the task is still resumed; an iteration
that does not end the loop is followed by the next one, which starts with a
wait. -/
theorem iteration_error_policy (s : Stop) (rest : List Stop) :
    ((∃ err, (iteration s).2 = .panicked err)
        ↔ ∃ pid sig err, (pid, sig) ∈ resumeCalls (iteration s).1
            ∧ s.ptraceSyscall pid sig = some err)
      ∧ ((iteration s).2 = .allocAbort
        ↔ ∃ pid ws regs, s.wait4 = .ok (pid, ws) ∧ s.getRegs pid = .ok regs
            ∧ (regs.Orig_rax = 1 ∨ regs.Orig_rax = 0)
            ∧ ¬ (regs.Rdx ≤ maxAlloc ∧ regs.Rdx ≤ s.heapLimit))
      ∧ ((iteration s).2 = .next →
          dispatchLoop (s :: rest)
            = ((iteration s).1 ++ (dispatchLoop rest).1, (dispatchLoop rest).2))
      ∧ (∀ err, (iteration s).2 = .panicked err →
          dispatchLoop (s :: rest) = ((iteration s).1, .panicked err))
      ∧ ((iteration s).2 = .allocAbort →
          dispatchLoop (s :: rest) = ((iteration s).1, .allocAbort))
      ∧ (iteration s).1.head? = some Event.wait4
      ∧ (∀ err, s.wait4 = .error err →
          iteration s = ([.wait4, .print (.waitError (-1) err)], .next))
      ∧ (∀ pid ws err, s.wait4 = .ok (pid, ws) → s.getRegs pid = .error err →
          iteration s = ([.wait4, .getRegs pid, .print (.regsError pid err)], .next))
      ∧ (∀ pid ws regs n err, s.wait4 = .ok (pid, ws) → s.getRegs pid = .ok regs →
          (regs.Rdx ≤ maxAlloc ∧ regs.Rdx ≤ s.heapLimit) →
          s.peekFault pid regs.Rsi regs.Rdx = some (n, err) →
          (regs.Orig_rax = 1 →
            (iteration s).1
              = [.wait4, .getRegs pid, .peekData pid regs.Rsi regs.Rdx,
                  .print (.peekError err),
                  .print (.traceOut pid
                    (readMem (s.mem pid) regs.Rsi (min n regs.Rdx)
                      ++ List.replicate (regs.Rdx - min n regs.Rdx) (Char.ofNat 0))),
                  .resume pid (resumeSignal ws)])
          ∧ (regs.Orig_rax = 0 →
            (iteration s).1
              = [.wait4, .getRegs pid, .peekData pid regs.Rsi regs.Rdx,
                  .print (.peekError err),
                  .print (.traceIn pid
                    (readMem (s.mem pid) regs.Rsi (min n regs.Rdx)
                      ++ List.replicate (regs.Rdx - min n regs.Rdx) (Char.ofNat 0))),
                  .resume pid (resumeSignal ws)])
          ∧ (s.ptraceSyscall pid (resumeSignal ws) = none → (iteration s).2 = .next)) := by
  refine ⟨?_, ?_, ?_, ?_, ?_, ?_, ?_, ?_, ?_⟩
  · cases hw : s.wait4 with
    | error e => simp [iteration, hw, resumeCalls]
    | ok v =>
      obtain ⟨pid, ws⟩ := v
      cases hr : s.getRegs pid with
      | error e => simp [iteration, hw, hr, resumeCalls]
      | ok regs =>
        rcases resumeCalls_iteration s pid ws regs hw hr with
          ⟨habort, _, hcalls⟩ | ⟨_, ⟨evs, hd⟩, hcalls⟩
        · rw [hcalls, habort]
          simp
        · rw [hcalls]
          cases hp : s.ptraceSyscall pid (resumeSignal ws) with
          | none =>
            simp only [iteration, hw, hr, hd, hp]
            constructor
            · rintro ⟨e, he⟩
              cases he
            · rintro ⟨p, g, e, hmem, hfail⟩
              simp only [List.mem_singleton, Prod.mk.injEq] at hmem
              rw [hmem.1, hmem.2, hp] at hfail
              cases hfail
          | some e0 =>
            simp only [iteration, hw, hr, hd, hp]
            constructor
            · intro _
              exact ⟨pid, resumeSignal ws, e0, List.mem_singleton.mpr rfl, hp⟩
            · intro _
              exact ⟨e0, rfl⟩
  · cases hw : s.wait4 with
    | error e => simp [iteration, hw]
    | ok v =>
      obtain ⟨pid, ws⟩ := v
      cases hr : s.getRegs pid with
      | error e =>
        simp only [iteration, hw, hr]
        constructor
        · intro h
          cases h
        · rintro ⟨p, w0, r0, hw0, hr0, _⟩
          cases hw0
          rw [hr] at hr0
          cases hr0
      | ok regs =>
        have hnone : dispatch s pid regs = none
            ↔ (regs.Orig_rax = 1 ∨ regs.Orig_rax = 0)
                ∧ ¬ (regs.Rdx ≤ maxAlloc ∧ regs.Rdx ≤ s.heapLimit) := by
          unfold dispatch
          by_cases h1 : regs.Orig_rax = 1
          · simp only [h1, if_true, true_or, true_and]
            exact traceBuffer_eq_none_iff s pid regs _
          · by_cases h0 : regs.Orig_rax = 0
            · simp only [h0, if_true, or_true, true_and]
              simp only [show ¬ ((0 : Nat) = 1) by decide, if_false]
              exact traceBuffer_eq_none_iff s pid regs _
            · simp [h1, h0]
        constructor
        · intro h
          rcases resumeCalls_iteration s pid ws regs hw hr with
            ⟨_, hd, _⟩ | ⟨hne, _, _⟩
          · exact ⟨pid, ws, regs, rfl, hr, hnone.mp hd⟩
          · exact absurd h hne
        · rintro ⟨p, w0, r0, hw0, hr0, hcase⟩
          cases hw0
          rw [hr] at hr0
          cases hr0
          have hd := hnone.mpr hcase
          simp [iteration, hw, hr, hd]
  · intro h
    cases hi : iteration s with
    | mk evs e =>
      rw [hi] at h
      simp only at h
      subst h
      simp [dispatchLoop, hi]
  · intro err h
    cases hi : iteration s with
    | mk evs e =>
      rw [hi] at h
      simp only at h
      subst h
      simp [dispatchLoop, hi]
  · intro h
    cases hi : iteration s with
    | mk evs e =>
      rw [hi] at h
      simp only at h
      subst h
      simp [dispatchLoop, hi]
  · cases hw : s.wait4 with
    | error e => simp [iteration, hw]
    | ok v =>
      obtain ⟨pid, ws⟩ := v
      cases hr : s.getRegs pid with
      | error e => simp [iteration, hw, hr]
      | ok regs =>
        cases hd : dispatch s pid regs with
        | none => simp [iteration, hw, hr, hd]
        | some evs =>
          cases hp : s.ptraceSyscall pid (resumeSignal ws) <;>
            simp [iteration, hw, hr, hd, hp]
  · intro err hw
    simp [iteration, hw]
  · intro pid ws err hw hr
    simp [iteration, hw, hr]
  · intro pid ws regs n err hw hr hfit hf
    refine ⟨?_, ?_, ?_⟩
    · intro h1
      cases hp : s.ptraceSyscall pid (resumeSignal ws) <;>
        simp [iteration, hw, hr, hp, dispatch, h1,
          traceBuffer_of_fault s pid regs _ n err hfit hf]
    · intro h0
      cases hp : s.ptraceSyscall pid (resumeSignal ws) <;>
        simp [iteration, hw, hr, hp, dispatch, h0,
          traceBuffer_of_fault s pid regs _ n err hfit hf]
    · intro hp
      by_cases h1 : regs.Orig_rax = 1
      · simp [iteration, hw, hr, hp, dispatch, h1,
          traceBuffer_of_fault s pid regs _ n err hfit hf]
      · by_cases h0 : regs.Orig_rax = 0
        · simp [iteration, hw, hr, hp, dispatch, h0,
            traceBuffer_of_fault s pid regs _ n err hfit hf]
        · simp [iteration, hw, hr, hp, dispatch, h1, h0]

/-- An instance of `iteration_error_policy` at four stops: a failed resume ends
the loop; a failed wait, register read or memory read does not, and after the
failed memory read the trace line with the one byte that was read is printed
and the task is resumed. -/
theorem iteration_error_policy_witness :
    (∃ err, (iteration resumeFailStop).2 = .panicked err)
      ∧ dispatchLoop [resumeFailStop, waitFailStop] = ((iteration resumeFailStop).1, .panicked 3)
      ∧ iteration waitFailStop = ([.wait4, .print (.waitError (-1) 10)], .next)
      ∧ iteration regsFailStop = ([.wait4, .getRegs 42, .print (.regsError 42 3)], .next)
      ∧ (iteration peekFailStop).1
          = [.wait4, .getRegs 42, .peekData 42 4096 2, .print (.peekError 5),
              .print (.traceOut 42
                (readMem (demoMem 42) 4096 (min 1 2)
                  ++ List.replicate (2 - min 1 2) (Char.ofNat 0))),
              .resume 42 (resumeSignal 0x857F)]
      ∧ (iteration peekFailStop).2 = .next :=
  ⟨(iteration_error_policy resumeFailStop []).1.mpr
      ⟨42, 0, 3, by decide, rfl⟩,
   (iteration_error_policy resumeFailStop [waitFailStop]).2.2.2.1 3 (by decide),
   (iteration_error_policy waitFailStop []).2.2.2.2.2.2.1 10 rfl,
   (iteration_error_policy regsFailStop []).2.2.2.2.2.2.2.1 42 0x857F 3 rfl rfl,
   ((iteration_error_policy peekFailStop []).2.2.2.2.2.2.2.2 42 0x857F
      { Orig_rax := 1, Rsi := 4096, Rdx := 2 } 1 5 rfl rfl (by decide) rfl).1 rfl,
   ((iteration_error_policy peekFailStop []).2.2.2.2.2.2.2.2 42 0x857F
      { Orig_rax := 1, Rsi := 4096, Rdx := 2 } 1 5 rfl rfl (by decide) rfl).2.2 rfl⟩

/-! ## The attach pass -/

/-- The attach pass prints one `attached` line per trace target, in order,
whatever the kernel answers. -/
theorem outputs_attachPass (k : AttachKernel) (ps : List TraceProc) :
    outputs (attachPass k ps) = ps.map (fun p => Output.attached p.Pid) := by
  induction ps with
  | nil => rfl
  | cons p rest ih =>
    unfold outputs at ih ⊢
    by_cases hs : k.seize p.Pid ≠ 0
    · simp [attachPass, TraceProc.attach, hs, List.filterMap_append, ih]
    · by_cases hi : k.interrupt p.Pid ≠ 0 <;>
        simp [attachPass, TraceProc.attach, hs, hi, List.filterMap_append, ih]

/-- C6 (evaluation at the failing input): seizing task 7 fails, `attach`
returns the error, and the pass still prints `attached 7` and no error line;
the same happens when the interrupt of task 7 fails.  Task 8 is attempted in
both cases. -/
theorem attachPass_reports_failed_id_as_attached :
    (NewTraceProc 7).attach seizeFails7 = ([Event.seize 7], some (.cantSeize 7 3))
      ∧ attachPass seizeFails7 [NewTraceProc 7, NewTraceProc 8]
          = [.seize 7, .print (.attached 7), .seize 8, .interrupt 8, .print (.attached 8)]
      ∧ (NewTraceProc 7).attach interruptFails7
          = ([Event.seize 7, Event.interrupt 7], some (.cantInterrupt 7 3))
      ∧ attachPass interruptFails7 [NewTraceProc 7, NewTraceProc 8]
          = [.seize 7, .interrupt 7, .print (.attached 7),
              .seize 8, .interrupt 8, .print (.attached 8)] := by
  decide

/-! ## The snapshot reader -/

/-- A status line whose fourth space-separated field is not an integer yields
no record. -/
theorem parseStat_omitted_of_bad_ppid (pid : Int) (statFileBytes f3 : Bytes)
    (h3 : (SplitN ' ' 5 statFileBytes).get? 3 = some f3) (hbad : Atoi f3 = none) :
    parseStat pid statFileBytes = .omitted := by
  simp only [parseStat, h3, hbad]

/-- C7 (evaluation at the failing input): for process 5 with command name
`a b 7 c`, state `S` and parent 1, the record built has parent id 7, state `b`
and command `(a`.  With the command name `sh` the record is the expected one,
and with the command name `a b` the process is omitted. -/
theorem parseStat_command_with_spaces :
    statLine 5 "a b 7 c".toList 'S' 1 "5 5 0 -1 4194304".toList
        = "5 (a b 7 c) S 1 5 5 0 -1 4194304".toList
      ∧ parseStat 5 (statLine 5 "a b 7 c".toList 'S' 1 "5 5 0 -1 4194304".toList)
        = .record { Pid := 5, Ppid := 7, Command := "(a".toList, State := 'b',
                    ThreadPids := [] }
      ∧ parseStat 5 (statLine 5 "sh".toList 'S' 1 "5 5 0 -1 4194304".toList)
        = .record { Pid := 5, Ppid := 1, Command := "(sh)".toList, State := 'S',
                    ThreadPids := [] }
      ∧ parseStat 5 (statLine 5 "a b".toList 'S' 1 "5 5 0 -1 4194304".toList) = .omitted := by
  decide

/-- C8 (evaluation at the failing input): processes 6 and 7 are listed and
both status files are read; the thread listing of 7 has vanished and
`loadProcs` ends in `log.Fatal` instead of returning the snapshot without 7.
When it is the status file of 7 that has vanished, 7 is omitted and the
snapshot is returned. -/
theorem loadProcs_fatal_on_vanished_task_dir :
    loadProcs taskGoneFS = .fatal 2
      ∧ loadProcs statGoneFS
          = .procs [{ Pid := 6, Ppid := 1, Command := "(sh)".toList, State := 'S',
                      ThreadPids := [6] }] := by
  decide

/-- C10 (evaluation at the failing inputs): an empty status file and a line
with fewer than four fields make `fields[3]` an index out of range; the status
line of a process named `a  1 b` has an empty third field and a fourth field
`1`, so `fields[2][0]` is an index out of range and `loadProcs` aborts. -/
theorem parseStat_index_out_of_range :
    parseStat 5 [] = .indexOutOfRange
      ∧ parseStat 5 "5 (sh) S".toList = .indexOutOfRange
      ∧ SplitN ' ' 5 (statLine 5 "a  1 b".toList 'S' 1 "5 5 0 -1 4194304".toList)
          = ["5".toList, "(a".toList, [], "1".toList, "b) S 1 5 5 0 -1 4194304".toList]
      ∧ parseStat 5 (statLine 5 "a  1 b".toList 'S' 1 "5 5 0 -1 4194304".toList)
          = .indexOutOfRange
      ∧ loadProcs doubleSpaceFS = .indexOutOfRange := by
  decide

/-! ## Status lines whose command name has no space -/

/-- The decimal digit characters are digits, carry their value, and none is a
space, a minus or a plus sign. -/
theorem digitChar_facts : ∀ d, d < 10 →
    isDigit (Nat.digitChar d) = true ∧ (Nat.digitChar d).toNat - 48 = d
      ∧ Nat.digitChar d ≠ ' ' ∧ Nat.digitChar d ≠ '-' ∧ Nat.digitChar d ≠ '+' := by
  decide

/-- Appending one digit to a run of digits. -/
theorem digitsValue_append_singleton (xs : Bytes) (c : Char) :
    digitsValue (xs ++ [c]) = digitsValue xs * 10 + (c.toNat - 48) := by
  simp [digitsValue, List.foldl_append]

/-- The decimal rendering loop puts in front of `ds` a non-empty run of
digits whose value is `n`. -/
theorem toDigitsCore_spec (fuel n : Nat) (ds : List Char) (h : n < fuel) :
    ∃ xs : Bytes, Nat.toDigitsCore 10 fuel n ds = xs ++ ds ∧ xs ≠ []
      ∧ (∀ c ∈ xs, isDigit c = true ∧ c ≠ ' ' ∧ c ≠ '-' ∧ c ≠ '+')
      ∧ digitsValue xs = n := by
  induction fuel generalizing n ds with
  | zero => omega
  | succ fuel ih =>
    have hd := digitChar_facts (n % 10) (Nat.mod_lt _ (by decide))
    unfold Nat.toDigitsCore
    by_cases h0 : n / 10 = 0
    · refine ⟨[Nat.digitChar (n % 10)], by simp [h0], by simp, ?_, ?_⟩
      · intro c hc
        rw [List.mem_singleton] at hc
        subst hc
        exact ⟨hd.1, hd.2.2.1, hd.2.2.2.1, hd.2.2.2.2⟩
      · have hn : n % 10 = n := by omega
        simp only [digitsValue, List.foldl_cons, List.foldl_nil, hd.2.1]
        omega
    · have hlt : n / 10 < fuel := by omega
      obtain ⟨xs, hxs, hne, hall, hval⟩ := ih (n / 10) (Nat.digitChar (n % 10) :: ds) hlt
      refine ⟨xs ++ [Nat.digitChar (n % 10)], by simp [h0, hxs], by simp, ?_, ?_⟩
      · intro c hc
        rcases List.mem_append.mp hc with hc | hc
        · exact hall c hc
        · rw [List.mem_singleton] at hc
          subst hc
          exact ⟨hd.1, hd.2.2.1, hd.2.2.2.1, hd.2.2.2.2⟩
      · rw [digitsValue_append_singleton, hval, hd.2.1]
        omega

/-- The decimal rendering of a natural number is a non-empty run of digits
whose value is the number. -/
theorem repr_spec (n : Nat) :
    (Nat.repr n).toList ≠ []
      ∧ (∀ c ∈ (Nat.repr n).toList, isDigit c = true ∧ c ≠ ' ' ∧ c ≠ '-' ∧ c ≠ '+')
      ∧ digitsValue (Nat.repr n).toList = n := by
  obtain ⟨xs, hxs, hne, hall, hval⟩ := toDigitsCore_spec (n + 1) n [] (Nat.lt_succ_self n)
  have hrepr : (Nat.repr n).toList = xs := by
    show Nat.toDigitsCore 10 (n + 1) n [] = xs
    rw [hxs, List.append_nil]
  rw [hrepr]
  exact ⟨hne, hall, hval⟩

/-- `Atoi` reads back the decimal rendering of a number that fits in `int`. -/
theorem Atoi_repr (n : Nat) (h : n < 2 ^ 63) : Atoi (Nat.repr n).toList = some (n : Int) := by
  obtain ⟨hne, hall, hval⟩ := repr_spec n
  generalize (Nat.repr n).toList = ds at hne hall hval
  cases ds with
  | nil => exact absurd rfl hne
  | cons c cs =>
    have hc := hall c (List.mem_cons_self _ _)
    have hdig : (c :: cs).all isDigit = true := by
      rw [List.all_eq_true]
      intro x hx
      exact (hall x hx).1
    have hneg : hasMinus (c :: cs) = false := by
      simp [hasMinus, hc.2.2.1]
    have hds : stripSign (c :: cs) = c :: cs := by
      simp [stripSign, hc.2.2.1, hc.2.2.2]
    have h1 : ¬ ((n : Int) < -(2 : Int) ^ 63 ∨ (2 : Int) ^ 63 - 1 < (n : Int)) := by
      have : (n : Int) < (2 : Int) ^ 63 := by exact_mod_cast h
      omega
    unfold Atoi
    simp only [hneg, hds, hdig, hval]
    simp only [List.isEmpty_cons, Bool.not_true, Bool.or_self, Bool.false_eq_true, if_false, h1]

/-- Cutting at a space that follows a piece without spaces. -/
theorem SplitN_append_space (n : Nat) (a rest : Bytes) (ha : ∀ c ∈ a, c ≠ ' ') :
    SplitN ' ' (n + 2) (a ++ ' ' :: rest) = a :: SplitN ' ' (n + 1) rest := by
  have hspan : (a ++ ' ' :: rest).span (fun c => c != ' ') = (a, ' ' :: rest) := by
    rw [List.span_eq_take_drop]
    have hp : ∀ c ∈ a, (fun c => c != ' ') c = true := by
      intro c hc
      simpa using ha c hc
    rw [List.takeWhile_append_of_pos hp, List.dropWhile_append_of_pos hp]
    simp
  rw [SplitN, hspan]

/-- The status-line block of `loadProcs` reads a status line correctly when
the command name has no space: for a command name without a space, a state
character other than the space and a parent pid that fits in `int`, the record
carries that parent pid, that state and the parenthesised command name. -/
theorem parseStat_statLine_of_no_space (p : Int) (pid : Nat) (comm : Bytes) (state : Char)
    (ppid : Nat) (rest : Bytes) (hcomm : ∀ c ∈ comm, c ≠ ' ') (hstate : state ≠ ' ')
    (hppid : ppid < 2 ^ 63) :
    parseStat p (statLine pid comm state ppid rest)
      = .record { Pid := p, Ppid := (ppid : Int), Command := '(' :: comm ++ [')'],
                  State := state, ThreadPids := [] } := by
  have hline : statLine pid comm state ppid rest
      = (Nat.repr pid).toList ++ ' ' :: (('(' :: comm ++ [')'])
          ++ ' ' :: ([state] ++ ' ' :: ((Nat.repr ppid).toList ++ ' ' :: rest))) := by
    have e1 : " (".toList = [' ', '('] := rfl
    have e2 : ") ".toList = [')', ' '] := rfl
    have e3 : " ".toList = [' '] := rfl
    simp [statLine, e1, e2, e3]
  have hA : ∀ c ∈ (Nat.repr pid).toList, c ≠ ' ' := fun c hc => ((repr_spec pid).2.1 c hc).2.1
  have hD : ∀ c ∈ (Nat.repr ppid).toList, c ≠ ' ' := fun c hc => ((repr_spec ppid).2.1 c hc).2.1
  have hB : ∀ c ∈ '(' :: comm ++ [')'], c ≠ ' ' := by
    intro c hc
    simp only [List.cons_append, List.mem_cons, List.mem_append, List.mem_singleton,
      List.not_mem_nil, or_false] at hc
    rcases hc with hc | hc | hc
    · subst hc; decide
    · exact hcomm c hc
    · subst hc; decide
  have hS : ∀ c ∈ [state], c ≠ ' ' := by
    intro c hc
    rw [List.mem_singleton] at hc
    subst hc
    exact hstate
  have hsplit : SplitN ' ' 5 (statLine pid comm state ppid rest)
      = [(Nat.repr pid).toList, '(' :: comm ++ [')'], [state], (Nat.repr ppid).toList, rest] := by
    rw [hline, SplitN_append_space 3 _ _ hA, SplitN_append_space 2 _ _ hB,
      SplitN_append_space 1 _ _ hS, SplitN_append_space 0 _ _ hD]
    rfl
  have hatoi := Atoi_repr ppid hppid
  simp only [parseStat, hsplit]
  simp only [List.get?, hatoi]

/-- An instance of `parseStat_statLine_of_no_space`: process 7 named `cat`,
running, child of 6. -/
theorem parseStat_statLine_of_no_space_witness :
    parseStat 7 (statLine 7 "cat".toList 'R' 6 "7 6 0 -1 4194304".toList)
      = .record { Pid := 7, Ppid := 6, Command := "(cat)".toList, State := 'R',
                  ThreadPids := [] } :=
  parseStat_statLine_of_no_space 7 7 "cat".toList 'R' 6 "7 6 0 -1 4194304".toList
    (by decide) (by decide) (by decide)

end WriteSnoop
